import Mathlib

/-!
Verification development for the biometria_Sasvin attendance system.

The frontend (Angular, under `frontend/src/app`) is embedded directly from
its TypeScript source.  The FastAPI backend that implements the
verification/anti-fraud decision engine is not part of the source tree here
(only its SQL bootstrap and its HTTP callers are), so the engine is
modelled from the specification document; every such definition is marked
`Modelled from the spec:` in its doc comment.

TypeScript `number` fields are embedded as `ℚ`; nullable / optional fields
as `Option`; `string` as `String`.
-/

/-- Embeds `AttendanceStatus` from `core/models/attendance.model.ts`, the
union of the four literal status strings. -/
inductive AttendanceStatus where
  | present
  | late
  | absent
  | early_leave
deriving DecidableEq, Repr

/-- Embeds `AttendanceRecord` from `core/models/attendance.model.ts`. -/
structure AttendanceRecord where
  id : String
  employee_id : String
  employee_name : String
  record_date : String
  check_in : Option String
  check_out : Option String
  status : AttendanceStatus
  confidence : Option ℚ
  message : Option String := none
  check_in_latitude : Option ℚ := none
  check_in_longitude : Option ℚ := none
  check_in_distance_meters : Option ℚ := none
  check_out_latitude : Option ℚ := none
  check_out_longitude : Option ℚ := none
  check_out_distance_meters : Option ℚ := none
  geo_validated : Option Bool := none
deriving DecidableEq, Repr

/-- Embeds `AttendanceCheckInRequest` from `core/models/attendance.model.ts`:
an image plus optional device id, latitude and longitude. -/
structure AttendanceCheckInRequest where
  image : String
  device_id : Option String := none
  latitude : Option ℚ := none
  longitude : Option ℚ := none
deriving DecidableEq, Repr

/-- Embeds `FaceVerifyResponse` from `core/models/attendance.model.ts`. -/
structure FaceVerifyResponse where
  success : Bool
  employee_id : Option String
  employee_name : Option String
  confidence : Option ℚ
  message : Option String
deriving DecidableEq, Repr

/-- Embeds `Employee` from `core/models/employee.model.ts` (the fields the
admin employees screen uses). -/
structure Employee where
  id : String
  employee_code : String
  first_name : String
  last_name : String
  is_active : Bool
  has_face_registered : Bool
deriving DecidableEq, Repr

/-- Embeds `GeoPosition` from `core/services/geolocation.service.ts`. -/
structure GeoPosition where
  latitude : ℚ
  longitude : ℚ
  accuracy : ℚ
deriving DecidableEq, Repr

/-- Models the coordinate payload the browser geolocation API hands the
success callback of `getCurrentPosition` (its `position.coords`). -/
structure BrowserCoords where
  latitude : ℚ
  longitude : ℚ
  accuracy : ℚ
deriving DecidableEq, Repr

/-- The environment `GeolocationService.getCurrentPosition` runs against:
whether `navigator.geolocation` exists, and what the browser request
delivers — either a position or a failure (permission denied, timeout, and
so on), the latter carrying the error message. -/
structure GeoEnv where
  supported : Bool
  outcome : Except String BrowserCoords
deriving Repr

/-- Embeds `GeolocationService.getCurrentPosition` from
`core/services/geolocation.service.ts`: when geolocation is unsupported it
emits `of(null)`; otherwise the browser promise is mapped to a
`GeoPosition`, and `catchError` turns every failure into `of(null)`.  The
observable therefore always emits exactly one `GeoPosition | null` value
and never errors. -/
def getCurrentPosition (env : GeoEnv) : Option GeoPosition :=
  if !env.supported then
    none
  else
    match env.outcome with
    | .ok c => some ⟨c.latitude, c.longitude, c.accuracy⟩
    | .error _ => none

/-- The request object `KioskComponent.scan` builds (`kiosk.component.ts`):
`{ image }`, extended with `latitude`/`longitude` only when
`this.currentPosition` is set.  No `device_id` is ever attached. -/
def mkScanRequest (image : String) (pos : Option GeoPosition) :
    AttendanceCheckInRequest :=
  match pos with
  | none => { image := image }
  | some p => { image := image, latitude := some p.latitude,
                longitude := some p.longitude }

/-- What `KioskComponent.scan` does with a captured frame: abort with an
error message when `captureFrame()` returned nothing, otherwise submit the
built request to `checkIn`/`checkOut`. -/
inductive ScanAction where
  | abortNoImage
  | submit (req : AttendanceCheckInRequest)
deriving DecidableEq, Repr

/-- The control flow of `KioskComponent.scan` up to the HTTP call: the only
early return is the missing-image check; the geolocation state only decides
whether coordinates are attached. -/
def scanAction (captured : Option String) (pos : Option GeoPosition) :
    ScanAction :=
  match captured with
  | none => .abortNoImage
  | some img => .submit (mkScanRequest img pos)

/-- The error payload an HTTP rejection hands the kiosk subscriber:
`error.error?.detail` may or may not be present. -/
structure ApiError where
  status : Nat
  detail : Option String
deriving DecidableEq, Repr

/-- Embeds the generic fallback text of the error handler in
`KioskComponent.scan`. -/
def genericScanError : String := "Error al procesar la solicitud"

/-- Embeds the message the error handler of `KioskComponent.scan` displays:
the HTTP error detail when present, else the generic fallback text. -/
def kioskErrorMessage (e : ApiError) : String :=
  e.detail.getD genericScanError

/-- Models the terminal kiosk screen state after a scan. -/
inductive KioskResult where
  | success (record : AttendanceRecord)
  | failure (msg : String)
deriving DecidableEq, Repr

/-- Embeds the subscriber of `KioskComponent.scan`: a successful response sets
`lastRecord` and `mode = success`; an error sets `errorMessage` (falling
back to the generic text) and `mode = error`. -/
def scanResult : Except ApiError AttendanceRecord → KioskResult
  | .ok r => .success r
  | .error e => .failure (kioskErrorMessage e)

/-! ## Decision engine, modelled from the spec

The FastAPI backend that implements the Verification Orchestrator, the
Geofence Validator and the record store is not in the source tree (the
README lists it, the frontend calls it over HTTP); the definitions below
are modelled from the specification document, §3–§4.5 and §6–§8. -/

/-- Modelled from the spec: the stable rejection reason codes of §4.5
(`SPOOF_SUSPECTED`, `FACE_NOT_RECOGNIZED`, `OUT_OF_RANGE`,
`FRAUD_SUSPECTED`, `NO_OPEN_CHECKIN`); `ALREADY_CHECKED_IN` names the
§8 rejection of a duplicate check-in for an (employee, date) that already
holds a record. -/
inductive ReasonCode where
  | SPOOF_SUSPECTED
  | FACE_NOT_RECOGNIZED
  | OUT_OF_RANGE
  | FRAUD_SUSPECTED
  | NO_OPEN_CHECKIN
  | ALREADY_CHECKED_IN
deriving DecidableEq, Repr

/-- Modelled from the spec: the terminal outcome of the state machine in
§4.5, `Decided(Accepted|Rejected)` with the reason code of the rejecting
rule. -/
inductive Decision where
  | accepted
  | rejected (reason : ReasonCode)
deriving DecidableEq, Repr

/-- Modelled from the spec: a claimed coordinate. -/
structure Coordinate where
  lat : ℚ
  lon : ℚ
deriving DecidableEq, Repr

/-- Modelled from the spec: a `Site` of §3 — a named location with a center
coordinate and a validation radius in meters. -/
structure Site where
  name : String
  center : Coordinate
  radius : ℚ
deriving DecidableEq, Repr

/-- Modelled from the spec: the Geofence Validator result of §4.3 —
`NotEvaluated` when the caller supplied no coordinate, `NotApplicable`
when the employee has no assigned site, and otherwise the in/out-of-radius
verdict with the distance to the nearest site. -/
inductive GeoResult where
  | notEvaluated
  | notApplicable
  | evaluated (withinAnySite : Bool) (distanceMeters : ℚ)
deriving DecidableEq, Repr

/-- Modelled from the spec: `validate(coordinate, sites)` of §4.3,
parametric in the great-circle distance primitive (an external
collaborator). No coordinate yields `NotEvaluated`; no assigned site
yields `NotApplicable`; otherwise the verdict is whether the radius of any
site
covers the claimed position, with the minimal distance reported. -/
def validate (dist : Coordinate → Coordinate → ℚ) (coord : Option Coordinate)
    (sites : List Site) : GeoResult :=
  match coord with
  | none => .notEvaluated
  | some c =>
    match sites with
    | [] => .notApplicable
    | s :: rest =>
      let ds := (s :: rest).map (fun site => dist c site.center)
      let within := (s :: rest).any (fun site => dist c site.center ≤ site.radius)
      .evaluated within (ds.foldl min (dist c s.center))

/-- Modelled from the spec: the deployment/site policy knobs of §4.3 and
§4.5 — the liveness threshold and whether geofencing is required. -/
structure Policy where
  livenessThreshold : ℚ
  geofenceRequired : Bool
deriving DecidableEq, Repr

/-- Modelled from the spec: the signals the Orchestrator feeds the §4.5
decision table — the Liveness Gate score, the Face Matcher result (`none`
is `NoMatch`, i.e. no candidate above threshold/margin), the Geofence
Validator result, and whether the Fraud Signal Evaluator produced a
blocking-severity flag. -/
structure VerifyInputs where
  livenessScore : ℚ
  matchConfidence : Option ℚ
  geo : GeoResult
  blockingFraud : Bool
deriving DecidableEq, Repr

/-- Modelled from the spec: a geofence verdict that fails a
geofencing-required policy — `withinAnySite = false` (rule 3 of §4.5), or
`NotEvaluated` when policy requires geofencing (§4.3: absence of a
coordinate "must not itself cause rejection unless policy requires
geofencing"). `NotApplicable` is excluded from the decision. -/
def geoFails : GeoResult → Bool
  | .notEvaluated => true
  | .notApplicable => false
  | .evaluated within _ => !within

/-- Modelled from the spec: the §4.5 decision table, first matching rule
wins, evaluated in order: 1. liveness below threshold →
`SPOOF_SUSPECTED`; 2. no face match above threshold/margin →
`FACE_NOT_RECOGNIZED`; 3. geofencing required and the validator verdict
fails → `OUT_OF_RANGE`; 4. blocking-severity fraud flag →
`FRAUD_SUSPECTED`; 5. otherwise accept. -/
def decideOutcome (cfg : Policy) (inp : VerifyInputs) : Decision :=
  if inp.livenessScore < cfg.livenessThreshold then
    .rejected .SPOOF_SUSPECTED
  else
    match inp.matchConfidence with
    | none => .rejected .FACE_NOT_RECOGNIZED
    | some _ =>
      if cfg.geofenceRequired && geoFails inp.geo then
        .rejected .OUT_OF_RANGE
      else if inp.blockingFraud then
        .rejected .FRAUD_SUSPECTED
      else
        .accepted

/-- Modelled from the spec: the §8 status derivation — an accepted
check-in status is a pure function of (check-in time, expected
schedule, grace period), `present` if within grace, `late` otherwise.
Times are minutes since midnight. -/
def deriveStatus (checkInMinute scheduledMinute graceMinutes : ℕ) :
    AttendanceStatus :=
  if checkInMinute ≤ scheduledMinute + graceMinutes then .present else .late

/-- Modelled from the spec: the predicate identifying the Attendance Record
of a given (employee, calendar date) in the record store. -/
def recordKeyMatches (e d : String) (r : AttendanceRecord) : Bool :=
  r.employee_id == e && r.record_date == d

/-- Modelled from the spec: does any Attendance Record exist for
(employee, date)? -/
def hasRecordFor (st : List AttendanceRecord) (e d : String) : Bool :=
  st.any (recordKeyMatches e d)

/-- Modelled from the spec: is the record open, i.e. does it belong to
(employee, date) and still lack a check-out? -/
def isOpenFor (e d : String) (r : AttendanceRecord) : Bool :=
  recordKeyMatches e d r && r.check_out == none

/-- Modelled from the spec: `getOpenRecord(employeeId, date)` of §6
specialised to existence — does an open Attendance Record exist for
(employee, date)? -/
def openRecordFor (st : List AttendanceRecord) (e d : String) : Bool :=
  st.any (isOpenFor e d)

/-- Modelled from the spec: a check-in unit of work — the §3 Verification
Attempt data an accepted check-in persists, plus the schedule comparison
inputs of §4.5 rule 5 (minutes since midnight). -/
structure CheckInAttempt where
  recordId : String
  employeeId : String
  employeeName : String
  date : String
  timeOfDay : String
  minuteOfDay : ℕ
  scheduledMinute : ℕ
  graceMinutes : ℕ
  inputs : VerifyInputs
deriving DecidableEq, Repr

/-- Modelled from the spec: a check-out unit of work — the check-out
fields a successful check-out writes into the existing record. -/
structure CheckOutAttempt where
  employeeId : String
  date : String
  timeOfDay : String
  outLatitude : Option ℚ := none
  outLongitude : Option ℚ := none
  outDistanceMeters : Option ℚ := none
  inputs : VerifyInputs
deriving DecidableEq, Repr

/-- Modelled from the spec: `createRecord(...)` of §6 — the Attendance
Record a successful check-in creates: check-in fields set, check-out
fields empty, status derived from the schedule comparison. -/
def mkRecord (a : CheckInAttempt) : AttendanceRecord :=
  { id := a.recordId
    employee_id := a.employeeId
    employee_name := a.employeeName
    record_date := a.date
    check_in := some a.timeOfDay
    check_out := none
    status := deriveStatus a.minuteOfDay a.scheduledMinute a.graceMinutes
    confidence := a.inputs.matchConfidence }

/-- Modelled from the spec: `mutateCheckOut(...)` of §6 applied to one
stored record — the open record of the attempting (employee, date) gets
its check-out fields written; every other record is untouched. -/
def closeRecord (a : CheckOutAttempt) (r : AttendanceRecord) :
    AttendanceRecord :=
  if isOpenFor a.employeeId a.date r then
    { r with check_out := some a.timeOfDay
             check_out_latitude := a.outLatitude
             check_out_longitude := a.outLongitude
             check_out_distance_meters := a.outDistanceMeters }
  else r

/-- Modelled from the spec: the check-in path of the Verification
Orchestrator (§4.5): the decision table runs first; an accepted attempt
additionally requires that no Attendance Record exist yet for
(employee, date) (§8: exactly one record under repeated attempts), in
which case the new record is appended; otherwise nothing is written. -/
def checkInOp (cfg : Policy) (a : CheckInAttempt)
    (st : List AttendanceRecord) : Decision × List AttendanceRecord :=
  match decideOutcome cfg a.inputs with
  | .rejected r => (.rejected r, st)
  | .accepted =>
    if hasRecordFor st a.employeeId a.date then
      (.rejected .ALREADY_CHECKED_IN, st)
    else
      (.accepted, st ++ [mkRecord a])

/-- Modelled from the spec: the check-out path of the Verification
Orchestrator (§4.5): the decision table runs first; an accepted attempt
additionally requires an existing open Attendance Record for the same
(employee, date) — absence is the distinct rejection `NO_OPEN_CHECKIN`,
never a new record; presence mutates that record in place. -/
def checkOutOp (cfg : Policy) (a : CheckOutAttempt)
    (st : List AttendanceRecord) : Decision × List AttendanceRecord :=
  match decideOutcome cfg a.inputs with
  | .rejected r => (.rejected r, st)
  | .accepted =>
    if openRecordFor st a.employeeId a.date then
      (.accepted, st.map (closeRecord a))
    else
      (.rejected .NO_OPEN_CHECKIN, st)

/-- Modelled from the spec: one inbound engine request. -/
inductive EngineOp where
  | checkIn (a : CheckInAttempt)
  | checkOut (a : CheckOutAttempt)
deriving DecidableEq, Repr

/-- Modelled from the spec: the state transition of one engine request
(the decision is dropped, only the store remains). -/
def applyOp (cfg : Policy) (st : List AttendanceRecord) :
    EngineOp → List AttendanceRecord
  | .checkIn a => (checkInOp cfg a st).2
  | .checkOut a => (checkOutOp cfg a st).2

/-- Modelled from the spec: the record store after a sequence of engine
requests, starting from the empty store. -/
def runOps (cfg : Policy) (ops : List EngineOp) : List AttendanceRecord :=
  ops.foldl (applyOp cfg) []

/-- Projection of an Attendance Record onto everything except its
check-out fields: used to state that check-out mutates only those. -/
def coreOf (r : AttendanceRecord) : AttendanceRecord :=
  { r with check_out := none
           check_out_latitude := none
           check_out_longitude := none
           check_out_distance_meters := none }

/-- At most one Attendance Record per (employee, calendar date). -/
def atMostOnePerKey (st : List AttendanceRecord) : Prop :=
  ∀ e d, st.countP (recordKeyMatches e d) ≤ 1

/-! ## Admin employees screen (face enrollment), from
`features/admin/pages/employees/employees.component.ts`. -/

/-- Models the state of the open face-registration modal:
`selectedEmployee` and `capturedImages`. -/
structure FaceModalState where
  employee : Employee
  images : List String
deriving DecidableEq, Repr

/-- Embeds the register-face action of the employees table row: the button
is disabled when `employee.has_face_registered`, and `registerFace`
(line 421) opens the modal with `capturedImages` cleared. -/
def registerFaceClick (e : Employee) : Option FaceModalState :=
  if e.has_face_registered then none else some ⟨e, []⟩

/-- Embeds one press of the capture button: the template disables it when
`capturedImages().length >= 3`; an enabled press runs `captureImage`,
which appends the captured frame. -/
def captureClick (st : FaceModalState) (img : String) : FaceModalState :=
  if st.images.length ≥ 3 then st else { st with images := st.images ++ [img] }

/-- State of the modal after a sequence of capture presses. -/
def captureAll (st : FaceModalState) (imgs : List String) : FaceModalState :=
  imgs.foldl captureClick st

/-- Embeds `EmployeesComponent.saveFaces`: without a selected employee or
with zero captured images it returns without calling the service;
otherwise it calls `registerFace(employee.id, capturedImages())`. The
result is the service call made, if any. -/
def saveFaces (employee : Option Employee) (images : List String) :
    Option (String × List String) :=
  match employee with
  | none => none
  | some e => if images.length = 0 then none else some (e.id, images)

/-! ## Record-store invariant lemmas -/

theorem recordKeyMatches_closeRecord (e d : String) (a : CheckOutAttempt)
    (r : AttendanceRecord) :
    recordKeyMatches e d (closeRecord a r) = recordKeyMatches e d r := by
  unfold closeRecord
  split <;> rfl

theorem coreOf_closeRecord (a : CheckOutAttempt) (r : AttendanceRecord) :
    coreOf (closeRecord a r) = coreOf r := by
  unfold closeRecord coreOf
  split <;> rfl

theorem map_coreOf_closeRecord (a : CheckOutAttempt)
    (st : List AttendanceRecord) :
    (st.map (closeRecord a)).map coreOf = st.map coreOf := by
  induction st with
  | nil => rfl
  | cons r rest ih => simp [coreOf_closeRecord, ih]

theorem countP_key_map_closeRecord (e d : String) (a : CheckOutAttempt)
    (st : List AttendanceRecord) :
    (st.map (closeRecord a)).countP (recordKeyMatches e d) =
      st.countP (recordKeyMatches e d) := by
  induction st with
  | nil => rfl
  | cons r rest ih =>
    simp [List.countP_cons, recordKeyMatches_closeRecord, ih]

theorem countP_key_eq_zero (st : List AttendanceRecord) (e d : String)
    (h : hasRecordFor st e d = false) :
    st.countP (recordKeyMatches e d) = 0 := by
  induction st with
  | nil => rfl
  | cons r rest ih =>
    simp only [hasRecordFor, List.any_cons, Bool.or_eq_false_iff] at h
    simp [List.countP_cons, h.1, ih h.2]

theorem checkOutOp_snd_cases (cfg : Policy) (a : CheckOutAttempt)
    (st : List AttendanceRecord) :
    (checkOutOp cfg a st).2 = st ∨
      (checkOutOp cfg a st).2 = st.map (closeRecord a) := by
  unfold checkOutOp
  cases decideOutcome cfg a.inputs with
  | rejected r => exact Or.inl rfl
  | accepted =>
    cases h : openRecordFor st a.employeeId a.date with
    | false => simp [h]
    | true => simp [h]

theorem checkInOp_snd_cases (cfg : Policy) (a : CheckInAttempt)
    (st : List AttendanceRecord) :
    (checkInOp cfg a st).2 = st ∨
      ((checkInOp cfg a st).1 = Decision.accepted ∧
       hasRecordFor st a.employeeId a.date = false ∧
       (checkInOp cfg a st).2 = st ++ [mkRecord a]) := by
  unfold checkInOp
  cases decideOutcome cfg a.inputs with
  | rejected r => exact Or.inl rfl
  | accepted =>
    cases h : hasRecordFor st a.employeeId a.date with
    | true => simp [h]
    | false => simp [h]

theorem applyOp_atMostOne (cfg : Policy) (st : List AttendanceRecord)
    (op : EngineOp) (h : atMostOnePerKey st) :
    atMostOnePerKey (applyOp cfg st op) := by
  cases op with
  | checkOut a =>
    intro e d
    show ((checkOutOp cfg a st).2).countP (recordKeyMatches e d) ≤ 1
    rcases checkOutOp_snd_cases cfg a st with hc | hc <;> rw [hc]
    · exact h e d
    · rw [countP_key_map_closeRecord]
      exact h e d
  | checkIn a =>
    intro e d
    show ((checkInOp cfg a st).2).countP (recordKeyMatches e d) ≤ 1
    rcases checkInOp_snd_cases cfg a st with hc | ⟨_, hfresh, hc⟩ <;> rw [hc]
    · exact h e d
    · rw [List.countP_append]
      cases hm : recordKeyMatches e d (mkRecord a) with
      | false => simpa [List.countP_cons, hm] using h e d
      | true =>
        have hkey : a.employeeId = e ∧ a.date = d := by
          simpa [recordKeyMatches, mkRecord] using hm
        have hzero : st.countP (recordKeyMatches e d) = 0 := by
          apply countP_key_eq_zero
          rw [← hkey.1, ← hkey.2]
          exact hfresh
        simp [List.countP_cons, hm, hzero]

theorem foldl_atMostOne (cfg : Policy) (ops : List EngineOp) :
    ∀ st, atMostOnePerKey st →
      atMostOnePerKey (ops.foldl (applyOp cfg) st) := by
  induction ops with
  | nil => exact fun st h => h
  | cons op rest ih =>
    exact fun st h => ih _ (applyOp_atMostOne cfg st op h)

theorem applyOp_length (cfg : Policy) (st : List AttendanceRecord)
    (op : EngineOp) : st.length ≤ (applyOp cfg st op).length := by
  cases op with
  | checkOut a =>
    show st.length ≤ ((checkOutOp cfg a st).2).length
    rcases checkOutOp_snd_cases cfg a st with hc | hc <;> simp [hc]
  | checkIn a =>
    show st.length ≤ ((checkInOp cfg a st).2).length
    rcases checkInOp_snd_cases cfg a st with hc | ⟨_, _, hc⟩ <;> simp [hc]

theorem checkOutOp_core_unchanged (cfg : Policy) (a : CheckOutAttempt)
    (st : List AttendanceRecord) :
    ((checkOutOp cfg a st).2).map coreOf = st.map coreOf := by
  rcases checkOutOp_snd_cases cfg a st with hc | hc <;> rw [hc]
  exact map_coreOf_closeRecord a st

/-- C1: for every employee and calendar date at most one Attendance Record
exists in any store reachable by the engine from the empty store; a
successful check-in appends exactly the one new record for its
(employee, date); a check-out never creates or deletes a record and only
ever mutates check-out fields of the record the check-in created; no
engine operation ever deletes a record. -/
theorem c1_record_unique_per_employee_date (cfg : Policy)
    (ops : List EngineOp) :
    atMostOnePerKey (runOps cfg ops)
    ∧ (∀ st op, st.length ≤ (applyOp cfg st op).length)
    ∧ (∀ a st, ((checkOutOp cfg a st).2).map coreOf = st.map coreOf)
    ∧ (∀ a st, (checkInOp cfg a st).2 = st ∨
        ((checkInOp cfg a st).1 = Decision.accepted ∧
         (checkInOp cfg a st).2 = st ++ [mkRecord a])) := by
  refine ⟨?_, applyOp_length cfg, checkOutOp_core_unchanged cfg, ?_⟩
  · exact foldl_atMostOne cfg ops [] (fun e d => by simp [List.countP_nil])
  · intro a st
    rcases checkInOp_snd_cases cfg a st with hc | ⟨h1, _, hc⟩
    · exact Or.inl hc
    · exact Or.inr ⟨h1, hc⟩

/-- C2: a verification attempt whose liveness score is below the configured
threshold is rejected with reason `SPOOF_SUSPECTED`, whatever the
face-match confidence, geofence verdict or fraud signals — rule 1 of the
decision table precedes all others, so an accepted outcome is impossible. -/
theorem c2_liveness_below_threshold_rejects (cfg : Policy)
    (inp : VerifyInputs)
    (h : inp.livenessScore < cfg.livenessThreshold) :
    decideOutcome cfg inp = Decision.rejected ReasonCode.SPOOF_SUSPECTED
    ∧ decideOutcome cfg inp ≠ Decision.accepted := by
  have hd : decideOutcome cfg inp =
      Decision.rejected ReasonCode.SPOOF_SUSPECTED := by
    unfold decideOutcome
    rw [if_pos h]
  exact ⟨hd, by rw [hd]; exact fun hc => Decision.noConfusion hc⟩

/-- Witness for C2, the injection test of §8: spoof score 0.0 against match
confidence 0.99 under threshold 0.5 is rejected `SPOOF_SUSPECTED` and not
accepted. -/
theorem c2_witness :
    (0:ℚ) < (⟨mkRat 1 2, true⟩ : Policy).livenessThreshold
    ∧ decideOutcome ⟨mkRat 1 2, true⟩
        ⟨0, some (mkRat 99 100), GeoResult.evaluated true 10, false⟩ =
        Decision.rejected ReasonCode.SPOOF_SUSPECTED
    ∧ decideOutcome ⟨mkRat 1 2, true⟩
        ⟨0, some (mkRat 99 100), GeoResult.evaluated true 10, false⟩ ≠
        Decision.accepted := by
  have h0 : (0:ℚ) < (⟨mkRat 1 2, true⟩ : Policy).livenessThreshold := by
    decide
  have hmain := c2_liveness_below_threshold_rejects ⟨mkRat 1 2, true⟩
    ⟨0, some (mkRat 99 100), GeoResult.evaluated true 10, false⟩ h0
  exact ⟨h0, hmain.1, hmain.2⟩

/-- C3: a check-out attempt for an (employee, date) with no open Attendance
Record mutates nothing (the store is returned unchanged, so it is not
treated as a new check-in), is never accepted, and — whenever the
biometric/geofence/fraud decision table itself would have accepted — is
rejected with the distinct reason `NO_OPEN_CHECKIN`. -/
theorem c3_checkout_without_open_record (cfg : Policy) (a : CheckOutAttempt)
    (st : List AttendanceRecord)
    (h : openRecordFor st a.employeeId a.date = false) :
    (checkOutOp cfg a st).2 = st
    ∧ (checkOutOp cfg a st).1 ≠ Decision.accepted
    ∧ (decideOutcome cfg a.inputs = Decision.accepted →
        (checkOutOp cfg a st).1 =
          Decision.rejected ReasonCode.NO_OPEN_CHECKIN) := by
  unfold checkOutOp
  cases hdec : decideOutcome cfg a.inputs with
  | rejected r =>
    exact ⟨rfl, fun hc => Decision.noConfusion hc,
      fun hacc => Decision.noConfusion hacc⟩
  | accepted =>
    rw [h]
    exact ⟨rfl, fun hc => Decision.noConfusion hc, fun _ => rfl⟩

/-! ## Concrete demonstration values for witnesses -/

/-- Demo policy: liveness threshold 0.5, geofencing not required. -/
def cfgDemo : Policy := ⟨mkRat 1 2, false⟩

/-- Demo verification signals that pass every decision-table rule. -/
def inputsDemo : VerifyInputs :=
  ⟨1, some (mkRat 99 100), GeoResult.notEvaluated, false⟩

/-- Demo employee id. -/
def empDemo : String := "emp-001"

/-- Demo calendar date. -/
def dateDemo : String := "2026-02-18"

/-- Demo captured frame (data URL). -/
def imgDemo : String := "data-jpeg-frame"

/-- Demo kiosk geolocation fix. -/
def posDemo : GeoPosition := ⟨mkRat 145 10, mkRat 905 10, 5⟩

/-- Demo check-in attempt: 08:05 against an 08:00 schedule with 10 grace
minutes. -/
def ciDemo : CheckInAttempt :=
  ⟨"rec-1", empDemo, "Rosa Diaz", dateDemo, "08:05", 485, 480, 10,
    inputsDemo⟩

/-- Demo check-out attempt for the same employee and date. -/
def coDemo : CheckOutAttempt :=
  ⟨empDemo, dateDemo, "17:01", none, none, none, inputsDemo⟩

/-- Store after a successful check-in followed by a successful check-out:
the single record for (`empDemo`, `dateDemo`) is closed. -/
def storeClosed : List AttendanceRecord :=
  (checkOutOp cfgDemo coDemo (checkInOp cfgDemo ciDemo []).2).2

/-- Witness for C3, the §8 idempotence test: after a check-in/check-out
cycle the record is closed, and the second check-out in succession is
rejected `NO_OPEN_CHECKIN` leaving the store untouched. -/
theorem c3_witness :
    openRecordFor storeClosed coDemo.employeeId coDemo.date = false
    ∧ (checkOutOp cfgDemo coDemo storeClosed).2 = storeClosed
    ∧ (checkOutOp cfgDemo coDemo storeClosed).1 =
        Decision.rejected ReasonCode.NO_OPEN_CHECKIN := by
  have hopen : openRecordFor storeClosed coDemo.employeeId coDemo.date =
      false := by decide
  have h := c3_checkout_without_open_record cfgDemo coDemo storeClosed hopen
  exact ⟨hopen, h.1, h.2.2 (by decide)⟩

/-! ## The exposed interface (C4/C5): spec shape vs code shape -/

/-- Modelled from the spec: `AttendanceOutcome` of §6,
`{accepted: bool, reasonCode, record?, confidence?, geoValidated?,
distanceMeters?}` — the shape the spec says the exposed `checkIn` and
`checkOut` return, written down for comparison with the shapes the code
actually uses. -/
structure AttendanceOutcome where
  accepted : Bool
  reasonCode : Option String
  record : Option AttendanceRecord := none
  confidence : Option ℚ := none
  geoValidated : Option Bool := none
  distanceMeters : Option ℚ := none
deriving DecidableEq, Repr

/-- Reconstruction of a spec-shaped outcome from what the code actually
delivers: a success response is an `AttendanceRecord` (the endpoints in
`attendance.service.ts` return it directly), a rejection is an HTTP error
whose body optionally carries a `detail` string.  This mapping is the only
way a caller obtains the spec shape — the wire carries no `accepted` or
`reasonCode` field. -/
def outcomeOfResponse : Except ApiError AttendanceRecord →
    AttendanceOutcome
  | .ok r =>
    { accepted := true, reasonCode := none, record := some r,
      confidence := r.confidence, geoValidated := r.geo_validated,
      distanceMeters := r.check_in_distance_meters }
  | .error e => { accepted := false, reasonCode := e.detail }

/-- C4, counterexample: at a concrete scan the request the kiosk submits to
`checkIn`/`checkOut` carries no device identifier at all, and a concrete
rejection delivers only the generic message — no value with an
`accepted`/`reasonCode` field reaches the caller. -/
theorem c4_counterexample :
    (mkScanRequest imgDemo (some posDemo)).device_id = none
    ∧ scanResult (Except.error ⟨422, none⟩) =
        KioskResult.failure genericScanError := by
  exact ⟨rfl, rfl⟩

/-- C4, amended: `checkIn` and `checkOut` take an
`AttendanceCheckInRequest` — one probe image, optional device id (the
kiosk always omits it), optional latitude/longitude — and return an
`AttendanceRecord` on the success channel and an optional free-text
`detail` on the error channel; a spec-shaped `AttendanceOutcome` exists
only as the reconstruction `outcomeOfResponse`, whose `accepted` flag is
exactly the channel and whose `reasonCode` is the optional error detail. -/
theorem c4_amended_interface :
    (∀ img p, mkScanRequest img (some p) =
      { image := img, device_id := none, latitude := some p.latitude,
        longitude := some p.longitude })
    ∧ (∀ img, mkScanRequest img none =
      { image := img, device_id := none, latitude := none,
        longitude := none })
    ∧ (∀ resp : Except ApiError AttendanceRecord,
        ((outcomeOfResponse resp).accepted = true
          ∧ ∃ r, resp = Except.ok r
              ∧ (outcomeOfResponse resp).record = some r
              ∧ (outcomeOfResponse resp).confidence = r.confidence
              ∧ (outcomeOfResponse resp).geoValidated = r.geo_validated)
        ∨ ((outcomeOfResponse resp).accepted = false
          ∧ ∃ e, resp = Except.error e
              ∧ (outcomeOfResponse resp).reasonCode = e.detail
              ∧ (outcomeOfResponse resp).record = none)) := by
  refine ⟨fun img p => rfl, fun img => rfl, fun resp => ?_⟩
  cases resp with
  | ok r => exact Or.inl ⟨rfl, r, rfl, rfl, rfl, rfl⟩
  | error e => exact Or.inr ⟨rfl, e, rfl, rfl, rfl⟩

/-- C5, counterexample: a concrete rejection whose error body carries no
`detail` reaches the kiosk caller as the generic message, not as a
specific reason code — and the carrier is a free `Option String`, not a
fixed enumeration. -/
theorem c5_counterexample :
    kioskErrorMessage ⟨500, none⟩ = genericScanError
    ∧ scanResult (Except.error ⟨500, none⟩) =
        KioskResult.failure genericScanError := by
  exact ⟨rfl, rfl⟩

/-- C5, amended: rejection reasons reach the kiosk as an optional
free-text detail string; the kiosk displays the detail verbatim when
present and substitutes the generic message when absent, and a success
never carries an error message. -/
theorem c5_amended_reason_delivery :
    (∀ s d, kioskErrorMessage ⟨s, some d⟩ = d)
    ∧ (∀ s, kioskErrorMessage ⟨s, none⟩ = genericScanError)
    ∧ (∀ e, scanResult (Except.error e) =
        KioskResult.failure (kioskErrorMessage e))
    ∧ (∀ r, scanResult (Except.ok r) = KioskResult.success r) := by
  exact ⟨fun s d => rfl, fun s => rfl, fun e => rfl, fun r => rfl⟩

/-- C6: with no coordinate supplied the Geofence Validator returns
`NotEvaluated`, which is a different value from every
`withinAnySite = false` verdict; under a policy that does not require
geofencing no attempt is ever rejected `OUT_OF_RANGE`, and an attempt
without a coordinate can be accepted; and the kiosk still submits the
request when it holds no position. -/
theorem c6_no_coordinate_not_evaluated :
    (∀ dist sites, validate dist none sites = GeoResult.notEvaluated)
    ∧ (∀ dm : ℚ, GeoResult.notEvaluated ≠ GeoResult.evaluated false dm)
    ∧ (∀ thr : ℚ, ∀ inp : VerifyInputs,
        decideOutcome ⟨thr, false⟩ inp ≠
          Decision.rejected ReasonCode.OUT_OF_RANGE)
    ∧ (∃ cfg inp, cfg.geofenceRequired = false
        ∧ inp.geo = GeoResult.notEvaluated
        ∧ decideOutcome cfg inp = Decision.accepted)
    ∧ (∀ img, scanAction (some img) none =
        ScanAction.submit { image := img }) := by
  refine ⟨fun dist sites => rfl, fun dm h => GeoResult.noConfusion h,
    ?_, ?_, fun img => rfl⟩
  · intro thr inp
    unfold decideOutcome
    split
    · intro h
      injection h with h
      exact ReasonCode.noConfusion h
    · cases hmc : inp.matchConfidence with
      | none =>
        intro h
        injection h with h
        exact ReasonCode.noConfusion h
      | some c =>
        simp only [Bool.false_and, Bool.false_eq_true, if_false]
        split
        · intro h
          injection h with h
          exact ReasonCode.noConfusion h
        · intro h
          exact Decision.noConfusion h
  · exact ⟨⟨1, false⟩, ⟨2, some 1, GeoResult.notEvaluated, false⟩,
      rfl, rfl, by decide⟩

/-- Witness for C6: the validator on the concrete empty coordinate, the
concrete accepted attempt without a coordinate, and the concrete kiosk
submission without coordinates. -/
theorem c6_witness :
    validate (fun _ _ => (0:ℚ)) none [] = GeoResult.notEvaluated
    ∧ scanAction (some imgDemo) none =
        ScanAction.submit { image := imgDemo } := by
  exact ⟨c6_no_coordinate_not_evaluated.1 (fun _ _ => (0:ℚ)) [],
    c6_no_coordinate_not_evaluated.2.2.2.2 imgDemo⟩

/-- C7: an Attendance Record status is one of exactly
present/late/absent/early-leave; for accepted check-ins the engine derives
it by the pure function `deriveStatus` of (check-in time, scheduled time,
grace minutes): at or before the grace boundary it is `present` (the exact
boundary included), one minute past the boundary it is `late`. -/
theorem c7_status_pure_function :
    (∀ s : AttendanceStatus, s = AttendanceStatus.present
        ∨ s = AttendanceStatus.late
        ∨ s = AttendanceStatus.absent
        ∨ s = AttendanceStatus.early_leave)
    ∧ (∀ t sched grace : ℕ, t ≤ sched + grace →
        deriveStatus t sched grace = AttendanceStatus.present)
    ∧ (∀ sched grace : ℕ,
        deriveStatus (sched + grace) sched grace = AttendanceStatus.present)
    ∧ (∀ sched grace : ℕ,
        deriveStatus (sched + grace + 1) sched grace = AttendanceStatus.late)
    ∧ (∀ a : CheckInAttempt, (mkRecord a).status =
        deriveStatus a.minuteOfDay a.scheduledMinute a.graceMinutes) := by
  refine ⟨fun s => by cases s <;> simp, ?_, ?_, ?_, fun a => rfl⟩
  · intro t sched grace h
    unfold deriveStatus
    rw [if_pos h]
  · intro sched grace
    unfold deriveStatus
    rw [if_pos (le_refl _)]
  · intro sched grace
    unfold deriveStatus
    rw [if_neg (by omega)]

/-- Witness for C7: a 08:05 check-in against an 08:00 schedule with 10
grace minutes is within grace, hence `present`. -/
theorem c7_witness :
    485 ≤ 480 + 10 ∧ deriveStatus 485 480 10 = AttendanceStatus.present :=
  ⟨by decide, c7_status_pure_function.2.1 485 480 10 (by decide)⟩

/-- C9: the kiosk geolocation flow is total — `getCurrentPosition` yields
`none` (it never raises) when geolocation is unsupported and on every
browser error, and yields the mapped position on success; every request
the kiosk builds carries latitude exactly when it carries longitude; and
a captured frame is always submitted, whatever the geolocation state. -/
theorem c9_geolocation_never_aborts_scan :
    (∀ outc, getCurrentPosition ⟨false, outc⟩ = none)
    ∧ (∀ sup msg, getCurrentPosition ⟨sup, Except.error msg⟩ = none)
    ∧ (∀ c, getCurrentPosition ⟨true, Except.ok c⟩ =
        some ⟨c.latitude, c.longitude, c.accuracy⟩)
    ∧ (∀ img pos, ((mkScanRequest img pos).latitude).isSome =
        ((mkScanRequest img pos).longitude).isSome)
    ∧ (∀ img pos, scanAction (some img) pos =
        ScanAction.submit (mkScanRequest img pos)) := by
  refine ⟨fun outc => rfl, ?_, fun c => rfl, ?_, fun img pos => rfl⟩
  · intro sup msg
    cases sup <;> rfl
  · intro img pos
    cases pos <;> rfl

theorem captureClick_le_three (st : FaceModalState) (img : String)
    (h : st.images.length ≤ 3) :
    (captureClick st img).images.length ≤ 3 := by
  unfold captureClick
  split
  · exact h
  · rename_i hlt
    simp only [List.length_append, List.length_cons, List.length_nil]
    omega

theorem captureAll_le_three (imgs : List String) :
    ∀ st : FaceModalState, st.images.length ≤ 3 →
      (captureAll st imgs).images.length ≤ 3 := by
  induction imgs with
  | nil => exact fun st h => h
  | cons img rest ih =>
    exact fun st h => ih _ (captureClick_le_three st img h)

/-- C10: the register-face action only opens the modal (with zero captured
images) for an employee whose face is not yet registered; any sequence of
capture presses from the opened modal holds at most 3 images;
`saveFaces` performs no service call with no selected employee or zero
images; and every `registerFace` call it does perform carries between 1
and 3 captured images. -/
theorem c10_enrollment_bounds :
    (∀ e : Employee,
        (e.has_face_registered = true ∧ registerFaceClick e = none)
        ∨ (e.has_face_registered = false
            ∧ registerFaceClick e = some ⟨e, []⟩))
    ∧ (∀ (e : Employee) (imgs : List String),
        (captureAll ⟨e, []⟩ imgs).images.length ≤ 3)
    ∧ (∀ imgs, saveFaces none imgs = none)
    ∧ (∀ e : Employee, saveFaces (some e) [] = none)
    ∧ (∀ (e : Employee) (imgs : List String),
        ((saveFaces (some e) (captureAll ⟨e, []⟩ imgs).images).all
          fun c => decide (1 ≤ c.2.length) && decide (c.2.length ≤ 3)) =
          true) := by
  refine ⟨?_, ?_, fun imgs => rfl, fun e => rfl, ?_⟩
  · intro e
    unfold registerFaceClick
    cases h : e.has_face_registered with
    | true => exact Or.inl ⟨rfl, by rw [if_pos rfl]⟩
    | false => exact Or.inr ⟨rfl, by rw [if_neg Bool.false_ne_true]⟩
  · intro e imgs
    exact captureAll_le_three imgs ⟨e, []⟩ (by simp)
  · intro e imgs
    have h3 : (captureAll ⟨e, []⟩ imgs).images.length ≤ 3 :=
      captureAll_le_three imgs ⟨e, []⟩ (by simp)
    by_cases h0 : (captureAll ⟨e, []⟩ imgs).images.length = 0
    · simp [saveFaces, h0]
    · have h1 : 1 ≤ (captureAll ⟨e, []⟩ imgs).images.length :=
        Nat.one_le_iff_ne_zero.mpr h0
      simp [saveFaces, h0, Option.all, h1, h3]

/-! ## Per-employee lock (C8), modelled from the spec §5

Two verification attempts for the same employee are modelled as two
threads interleaving atomic micro-steps.  Each thread acquires the
employee-scoped lock, reads whether an open Attendance Record exists for
today, then either commits its write or exits on a rejection, an
exception, or an external-call timeout; every exit releases the lock.
The external-call timeout of §5 is abstracted into a nondeterministic
abort step. -/

/-- Modelled from the spec: how a verification leaves its decision window
(§5 lists success, rejection, exception, and external-call timeout). -/
inductive ExitKind where
  | success
  | policyReject
  | exception
  | timeout
deriving DecidableEq, Repr

/-- Modelled from the spec: the phase of one verification attempt with
respect to the employee-scoped lock: not yet acquired; holding the lock
before the read; holding the lock after having read whether an open
record exists; or finished (lock released) with an exit kind. -/
inductive Phase where
  | start
  | haveLock
  | haveRead (sawOpen : Bool)
  | finished (exit : ExitKind)
deriving DecidableEq, Repr

/-- Holding the decision window: between acquire and release. -/
def inCrit (p : Phase) : Prop :=
  p = Phase.haveLock ∨ ∃ b, p = Phase.haveRead b

/-- Modelled from the spec: the shared state of two concurrent attempts
for the same employee — the lock (holder, if any; threads are named by
`Bool`), each thread phase, and whether an open Attendance Record exists
for today. -/
structure OrchState where
  lock : Option Bool
  pc : Bool → Phase
  openRec : Bool

/-- Modelled from the spec: one atomic micro-step of the §5 protocol.
Acquire requires the lock free; the read of "does an open record exist"
and the subsequent write both require holding the lock; commit writes and
releases; abort (rejection, exception, or timeout) releases without
writing. -/
inductive OrchStep : OrchState → OrchState → Prop where
  | acquire (s : OrchState) (t : Bool)
      (h1 : s.pc t = Phase.start) (h2 : s.lock = none) :
      OrchStep s ⟨some t, Function.update s.pc t Phase.haveLock, s.openRec⟩
  | read (s : OrchState) (t : Bool)
      (h1 : s.pc t = Phase.haveLock) (h2 : s.lock = some t) :
      OrchStep s
        ⟨s.lock, Function.update s.pc t (Phase.haveRead s.openRec),
          s.openRec⟩
  | commit (s : OrchState) (t : Bool) (w b : Bool)
      (h1 : s.pc t = Phase.haveRead b) (h2 : s.lock = some t) :
      OrchStep s
        ⟨none, Function.update s.pc t (Phase.finished ExitKind.success), w⟩
  | abort (s : OrchState) (t : Bool) (e : ExitKind)
      (he : e ≠ ExitKind.success) (h1 : inCrit (s.pc t))
      (h2 : s.lock = some t) :
      OrchStep s
        ⟨none, Function.update s.pc t (Phase.finished e), s.openRec⟩

/-- States reachable from a given initial state by interleaving steps. -/
inductive OrchReach (s0 : OrchState) : OrchState → Prop where
  | refl : OrchReach s0 s0
  | step (s s' : OrchState) :
      OrchReach s0 s → OrchStep s s' → OrchReach s0 s'

/-- Both attempts pending, lock free, with any initial record state. -/
def orchInit (b : Bool) : OrchState := ⟨none, fun _ => Phase.start, b⟩

/-- The inductive invariant: the lock is held by every thread inside its
decision window, and a read value is still accurate — nobody wrote the
record between a read and the present. -/
def OrchInv (s : OrchState) : Prop :=
  (∀ t, inCrit (s.pc t) → s.lock = some t)
  ∧ (∀ t b, s.pc t = Phase.haveRead b → s.openRec = b)

theorem orchStep_preserves_inv (s s' : OrchState) (hs : OrchStep s s')
    (h : OrchInv s) : OrchInv s' := by
  cases hs with
  | acquire t h1 h2 =>
    refine ⟨fun u hu => ?_, fun u b hu => ?_⟩
    · simp only [Function.update_apply] at hu
      show some t = some u
      by_cases hut : u = t
      · rw [hut]
      · rw [if_neg hut] at hu
        have hl := h.1 u hu
        rw [h2] at hl
        exact Option.noConfusion hl
    · simp only [Function.update_apply] at hu
      by_cases hut : u = t
      · rw [if_pos hut] at hu
        exact Phase.noConfusion hu
      · rw [if_neg hut] at hu
        exact h.2 u b hu
  | read t h1 h2 =>
    refine ⟨fun u hu => ?_, fun u b hu => ?_⟩
    · simp only [Function.update_apply] at hu
      show s.lock = some u
      by_cases hut : u = t
      · rw [hut]
        exact h2
      · rw [if_neg hut] at hu
        exact h.1 u hu
    · simp only [Function.update_apply] at hu
      by_cases hut : u = t
      · rw [if_pos hut] at hu
        injection hu
      · rw [if_neg hut] at hu
        exact h.2 u b hu
  | commit t w b h1 h2 =>
    refine ⟨fun u hu => ?_, fun u c hu => ?_⟩
    · simp only [Function.update_apply] at hu
      by_cases hut : u = t
      · rw [if_pos hut] at hu
        rcases hu with hc | ⟨c, hc⟩ <;> exact Phase.noConfusion hc
      · rw [if_neg hut] at hu
        have hl := h.1 u hu
        rw [h2] at hl
        injection hl with ht
        exact absurd ht.symm hut
    · simp only [Function.update_apply] at hu
      by_cases hut : u = t
      · rw [if_pos hut] at hu
        exact Phase.noConfusion hu
      · rw [if_neg hut] at hu
        have hl := h.1 u (Or.inr ⟨c, hu⟩)
        rw [h2] at hl
        injection hl with ht
        exact absurd ht.symm hut
  | abort t e he h1 h2 =>
    refine ⟨fun u hu => ?_, fun u c hu => ?_⟩
    · simp only [Function.update_apply] at hu
      by_cases hut : u = t
      · rw [if_pos hut] at hu
        rcases hu with hc | ⟨c, hc⟩ <;> exact Phase.noConfusion hc
      · rw [if_neg hut] at hu
        have hl := h.1 u hu
        rw [h2] at hl
        injection hl with ht
        exact absurd ht.symm hut
    · simp only [Function.update_apply] at hu
      by_cases hut : u = t
      · rw [if_pos hut] at hu
        exact Phase.noConfusion hu
      · rw [if_neg hut] at hu
        exact h.2 u c hu

theorem orchReach_inv (b : Bool) (s : OrchState)
    (h : OrchReach (orchInit b) s) : OrchInv s := by
  induction h with
  | refl =>
    refine ⟨fun t ht => ?_, fun t c ht => ?_⟩
    · rcases ht with hc | ⟨c, hc⟩ <;> exact Phase.noConfusion hc
    · exact Phase.noConfusion ht
  | step s s' hreach hstep ih =>
    exact orchStep_preserves_inv s s' hstep ih

/-- C8: in the modelled §5 protocol, in every reachable interleaving of
two verification attempts for the same employee, at most one attempt is
inside its read-then-write decision window at a time (mutual exclusion),
the value an attempt read for "does an open Attendance Record exist for
today" is still the stored value when it writes (the read and write are
atomic with respect to the other attempt), and every step that finishes
an attempt — success, rejection, exception, or external-call timeout —
leaves the lock released. -/
theorem c8_lock_atomic_and_released (b : Bool) (s : OrchState)
    (h : OrchReach (orchInit b) s) :
    ¬(inCrit (s.pc false) ∧ inCrit (s.pc true))
    ∧ (∀ t c, s.pc t = Phase.haveRead c → s.openRec = c)
    ∧ (∀ s' t e, OrchStep s s' → s'.pc t = Phase.finished e →
        s.pc t = Phase.finished e ∨ s'.lock = none) := by
  have hinv := orchReach_inv b s h
  refine ⟨?_, hinv.2, ?_⟩
  · rintro ⟨hA, hB⟩
    have hlf := hinv.1 false hA
    have hlt := hinv.1 true hB
    rw [hlf] at hlt
    injection hlt with hc
    exact Bool.noConfusion hc
  · intro s' t e hstep hfin
    cases hstep with
    | acquire u h1 h2 =>
      simp only [Function.update_apply] at hfin
      by_cases hut : t = u
      · rw [if_pos hut] at hfin
        exact Phase.noConfusion hfin
      · rw [if_neg hut] at hfin
        exact Or.inl hfin
    | read u h1 h2 =>
      simp only [Function.update_apply] at hfin
      by_cases hut : t = u
      · rw [if_pos hut] at hfin
        exact Phase.noConfusion hfin
      · rw [if_neg hut] at hfin
        exact Or.inl hfin
    | commit u w c h1 h2 => exact Or.inr rfl
    | abort u e2 he h1 h2 => exact Or.inr rfl

/-- Witness for C8: the theorem applied to the concrete initial
interleaving state. -/
theorem c8_witness :
    ¬(inCrit ((orchInit false).pc false) ∧ inCrit ((orchInit false).pc true))
    ∧ (∀ t c, (orchInit false).pc t = Phase.haveRead c →
        (orchInit false).openRec = c)
    ∧ (∀ s' t e, OrchStep (orchInit false) s' → s'.pc t = Phase.finished e →
        (orchInit false).pc t = Phase.finished e ∨ s'.lock = none) :=
  c8_lock_atomic_and_released false (orchInit false) OrchReach.refl
